import Mathlib

/-! Shallow embedding of the AgentComm core (src/core/agent.ts together with the
SQLite storage layer src/storage/database.ts) in Lean 4.

Modelling conventions:
* Timestamps (`Date` / `Date.now()` millisecond values) are `Int`.
* `randomUUID()` is modelled by a deterministic fresh-id counter in `Storage`.
* The completion service (LLM) is external: each call site takes the service's
  reply after `JSON.parse`, as an `Option JsonValue` (`none` models a reply on
  which `JSON.parse` throws).
* SQL tables are lists in insertion (rowid) order; `SELECT ... WHERE id = ?`
  `.get` is `List.find?`; `ORDER BY` clauses are modelled by an explicit
  insertion sort on the same keys (SQLite TEXT comparison for `priority`).
* JavaScript truthiness on optional strings (`if (routing.targetUserId)`,
  `x || default`) is modelled explicitly: `none` and `some ""` are falsy.
-/

namespace AgentComm

/-- Request.status values from core/types.ts / the requests table. -/
inductive ReqStatus where
  | pending
  | in_progress
  | waiting_response
  | completed
  | cancelled
deriving DecidableEq

/-- Task.status values. -/
inductive TaskStatus where
  | pending
  | in_progress
  | completed
  | deferred
deriving DecidableEq

/-- Priority values. -/
inductive Priority where
  | low
  | normal
  | high
  | urgent
deriving DecidableEq

/-- The TEXT stored in the `priority` column; SQL `ORDER BY priority DESC`
compares these strings lexicographically. -/
def priorityText : Priority → String
  | Priority.low => "low"
  | Priority.normal => "normal"
  | Priority.high => "high"
  | Priority.urgent => "urgent"

/-- users table row (fields used by the modelled core logic). -/
structure User where
  id : String
  name : String
deriving DecidableEq

/-- agents table row. -/
structure AgentRec where
  id : String
  userId : String
  name : String
deriving DecidableEq

/-- requests table row. -/
structure Request where
  id : String
  fromUserId : String
  fromAgentId : String
  toUserId : Option String
  toAgentId : Option String
  subject : String
  description : String
  status : ReqStatus
  priority : Priority
  followUpCount : Nat
  lastFollowUp : Option Int
  createdAt : Int
  updatedAt : Int
  completedAt : Option Int
  response : Option String
deriving DecidableEq

/-- tasks table row. -/
structure Task where
  id : String
  userId : String
  requestId : String
  title : String
  description : String
  status : TaskStatus
  priority : Priority
  createdAt : Int
  updatedAt : Int
  completedAt : Option Int
deriving DecidableEq

/-- messages table row. -/
structure Message where
  id : String
  requestId : Option String
  fromAgentId : String
  toAgentId : String
  content : String
  type : String
  isPublic : Bool
  createdAt : Int
deriving DecidableEq

/-- memories table row. -/
structure Memory where
  id : String
  type : String
  content : String
  source : String
  isPublic : Bool
  createdAt : Int
deriving DecidableEq

/-- A team from OrgContext. -/
structure Team where
  name : String
  members : List String
deriving DecidableEq

/-- OrgContext (read-only snapshot; routing rules are only serialized into the
LLM prompt and never consulted algorithmically, so they are not modelled). -/
structure OrgContext where
  teams : List Team
deriving DecidableEq

/-- The SQLite database plus the fresh-id source standing in for randomUUID. -/
structure Storage where
  users : List User
  agents : List AgentRec
  requests : List Request
  tasks : List Task
  messages : List Message
  memories : List Memory
  nextId : Nat
deriving DecidableEq

/-- Deterministic stand-in for randomUUID(). -/
def freshId (n : Nat) : String := "id-" ++ toString n

/-- Insertion step for the insertion sort modelling SQL ORDER BY. -/
def insertLE {α : Type} (le : α → α → Bool) (a : α) : List α → List α
  | [] => [a]
  | b :: bs => if le a b then a :: b :: bs else b :: insertLE le a bs

/-- Insertion sort used to model SQL ORDER BY clauses. -/
def sortLE {α : Type} (le : α → α → Bool) : List α → List α
  | [] => []
  | a :: as => insertLE le a (sortLE le as)

namespace Storage

/-- `getUser`: SELECT * FROM users WHERE id = ? (first row). -/
def getUser (st : Storage) (id : String) : Option User :=
  st.users.find? (fun u => u.id = id)

/-- `getAgentByUserId`: SELECT * FROM agents WHERE user_id = ? (first row). -/
def getAgentByUserId (st : Storage) (userId : String) : Option AgentRec :=
  st.agents.find? (fun a => a.userId = userId)

/-- Argument record for `createRequest` (the Omit<Request,...> parameter). -/
structure NewRequest where
  fromUserId : String
  fromAgentId : String
  toUserId : Option String
  toAgentId : Option String
  subject : String
  description : String
  status : ReqStatus
  priority : Priority
deriving DecidableEq

/-- `createRequest`: INSERT INTO requests with follow_up_count 0 and
created_at = updated_at = now; returns the inserted record. -/
def createRequest (st : Storage) (now : Int) (nr : NewRequest) : Storage × Request :=
  let r : Request :=
    { id := freshId st.nextId
      fromUserId := nr.fromUserId
      fromAgentId := nr.fromAgentId
      toUserId := nr.toUserId
      toAgentId := nr.toAgentId
      subject := nr.subject
      description := nr.description
      status := nr.status
      priority := nr.priority
      followUpCount := 0
      lastFollowUp := none
      createdAt := now
      updatedAt := now
      completedAt := none
      response := none }
  ({ st with requests := st.requests ++ [r], nextId := st.nextId + 1 }, r)

/-- `getRequest`: SELECT * FROM requests WHERE id = ? (first row). -/
def getRequest (st : Storage) (id : String) : Option Request :=
  st.requests.find? (fun r => r.id = id)

/-- SQL comparator for `ORDER BY created_at DESC` on requests. -/
def reqCreatedDesc (a b : Request) : Bool := decide (b.createdAt ≤ a.createdAt)

/-- `getRequestsByFromUser`: SELECT * FROM requests WHERE from_user_id = ?
ORDER BY created_at DESC. -/
def getRequestsByFromUser (st : Storage) (userId : String) : List Request :=
  sortLE reqCreatedDesc (st.requests.filter (fun r => r.fromUserId = userId))

/-- The `Partial<Request>` update record accepted by `updateRequest`; a `none`
field models an `undefined` field, which the SQL SET clause skips. -/
structure RequestUpdate where
  status : Option ReqStatus := none
  toUserId : Option String := none
  toAgentId : Option String := none
  response : Option String := none
  followUpCount : Option Nat := none
  lastFollowUp : Option Int := none
  completedAt : Option Int := none
deriving DecidableEq

/-- Apply the SET clauses built by `updateRequest` to one row; `updated_at` is
always stamped. -/
def applyRequestUpdate (now : Int) (u : RequestUpdate) (r : Request) : Request :=
  let r1 := { r with updatedAt := now }
  let r2 := match u.status with
    | some s => { r1 with status := s }
    | none => r1
  let r3 := match u.toUserId with
    | some x => { r2 with toUserId := some x }
    | none => r2
  let r4 := match u.toAgentId with
    | some x => { r3 with toAgentId := some x }
    | none => r3
  let r5 := match u.response with
    | some x => { r4 with response := some x }
    | none => r4
  let r6 := match u.followUpCount with
    | some x => { r5 with followUpCount := x }
    | none => r5
  let r7 := match u.lastFollowUp with
    | some x => { r6 with lastFollowUp := some x }
    | none => r6
  match u.completedAt with
    | some x => { r7 with completedAt := some x }
    | none => r7

/-- `updateRequest`: UPDATE requests SET ... WHERE id = ?.  Note: there is no
terminal-state guard of any kind in the source. -/
def updateRequest (st : Storage) (now : Int) (id : String) (u : RequestUpdate) : Storage :=
  { st with
    requests := st.requests.map (fun r => if r.id = id then applyRequestUpdate now u r else r) }

/-- Argument record for `createTask`. -/
structure NewTask where
  userId : String
  requestId : String
  title : String
  description : String
  status : TaskStatus
  priority : Priority
deriving DecidableEq

/-- `createTask`: INSERT INTO tasks with created_at = updated_at = now. -/
def createTask (st : Storage) (now : Int) (nt : NewTask) : Storage × Task :=
  let t : Task :=
    { id := freshId st.nextId
      userId := nt.userId
      requestId := nt.requestId
      title := nt.title
      description := nt.description
      status := nt.status
      priority := nt.priority
      createdAt := now
      updatedAt := now
      completedAt := none }
  ({ st with tasks := st.tasks ++ [t], nextId := st.nextId + 1 }, t)

/-- SQL comparator for `ORDER BY priority DESC, created_at ASC` on tasks;
`priority` is a TEXT column so DESC is lexicographic-descending on the
priority strings. -/
def taskOrd (a b : Task) : Bool :=
  if priorityText a.priority = priorityText b.priority then
    decide (a.createdAt ≤ b.createdAt)
  else
    decide (priorityText b.priority < priorityText a.priority)

/-- `getTasksForUser`: SELECT * FROM tasks WHERE user_id = ? [AND status = ?]
ORDER BY priority DESC, created_at ASC.  The status filter is appended only
when the (truthy) status argument is supplied. -/
def getTasksForUser (st : Storage) (userId : String) (status : Option TaskStatus) : List Task :=
  let base := st.tasks.filter (fun t => t.userId = userId)
  let filtered := match status with
    | some s => base.filter (fun t => t.status = s)
    | none => base
  sortLE taskOrd filtered

/-- `updateTask`: UPDATE tasks SET ... WHERE id = ?; setting status to
completed also stamps completed_at. -/
def updateTask (st : Storage) (now : Int) (id : String) (status : Option TaskStatus) : Storage :=
  { st with
    tasks := st.tasks.map (fun t =>
      if t.id = id then
        match status with
        | some s =>
          if s = TaskStatus.completed then
            { t with updatedAt := now, status := s, completedAt := some now }
          else
            { t with updatedAt := now, status := s }
        | none => { t with updatedAt := now }
      else t) }

/-- Argument record for `createMessage`. -/
structure NewMessage where
  requestId : Option String
  fromAgentId : String
  toAgentId : String
  content : String
  type : String
  isPublic : Bool
deriving DecidableEq

/-- `createMessage`: INSERT INTO messages. -/
def createMessage (st : Storage) (now : Int) (nm : NewMessage) : Storage × Message :=
  let m : Message :=
    { id := freshId st.nextId
      requestId := nm.requestId
      fromAgentId := nm.fromAgentId
      toAgentId := nm.toAgentId
      content := nm.content
      type := nm.type
      isPublic := nm.isPublic
      createdAt := now }
  ({ st with messages := st.messages ++ [m], nextId := st.nextId + 1 }, m)

/-- Does `hay` start with `needle` (character lists)? -/
def startsWithL : List Char → List Char → Bool
  | [], _ => true
  | _ :: _, [] => false
  | a :: as, b :: bs => a = b && startsWithL as bs

/-- Does `hay` contain `needle` as a contiguous run? -/
def containsSeq (needle : List Char) : List Char → Bool
  | [] => startsWithL needle []
  | b :: bs => startsWithL needle (b :: bs) || containsSeq needle bs

/-- ASCII lower-casing, modelling SQLite LIKE's ASCII case folding. -/
def toLowerStr (s : String) : String := String.mk (s.toList.map Char.toLower)

/-- SQL `content LIKE '%query%'` (SQLite LIKE is ASCII case-insensitive). -/
def likeContains (content query : String) : Bool :=
  containsSeq (toLowerStr query).toList (toLowerStr content).toList

/-- SQL comparator for `ORDER BY created_at DESC` on memories. -/
def memCreatedDesc (a b : Memory) : Bool := decide (b.createdAt ≤ a.createdAt)

/-- `searchMemories`: SELECT * FROM memories WHERE is_public = 1 AND content
LIKE '%query%' ORDER BY created_at DESC LIMIT ?. -/
def searchMemories (st : Storage) (query : String) (limit : Nat) : List Memory :=
  (sortLE memCreatedDesc
    (st.memories.filter (fun m => m.isPublic && likeContains m.content query))).take limit

end Storage

/-- Runtime JSON values, the possible results of `JSON.parse` on a
completion-service reply. -/
inductive JsonValue where
  | null
  | bool (b : Bool)
  | num (q : Rat)
  | str (s : String)
  | arr (elems : List JsonValue)
  | obj (fields : List (String × JsonValue))

/-- JavaScript property read `v[k]` on a parsed JSON value: `none` models
`undefined` (missing key, or property access on a primitive).  The one case
this lookup does not model is `v = null`, where JS throws a TypeError; call
sites that read a property of a possibly-null value handle that case
explicitly. -/
def jsGetField (v : JsonValue) (k : String) : Option JsonValue :=
  match v with
  | JsonValue.obj fields => (fields.find? (fun p => p.1 = k)).map (fun p => p.2)
  | _ => none

/-- Extract a JS string value (`none` for null/absent/non-string). -/
def jsonString? (v : Option JsonValue) : Option String :=
  match v with
  | some (JsonValue.str s) => some s
  | _ => none

/-- JS truthiness of an optional string field: `null`/`undefined` and the
empty string are falsy. -/
def jsTruthyOptStr : Option String → Bool
  | none => false
  | some s => decide (s ≠ "")

/-- `classifyIntent` (agent.ts): `try { return JSON.parse(reply) } catch
{ return { type: 'general' } }` — the parsed value is returned unvalidated;
only a JSON.parse failure produces the literal general intent. -/
def classifyIntent (parsed : Option JsonValue) : JsonValue :=
  match parsed with
  | some v => v
  | none => JsonValue.obj [("type", JsonValue.str "general")]

/-- The five handler branches of the `switch (intent.type)` in
`handleUserMessage`. -/
inductive Handler where
  | request
  | status
  | tasks
  | respond
  | general
deriving DecidableEq

/-- The `switch (intent.type)` dispatch in `handleUserMessage`: any type other
than the four non-general intent strings falls to the default branch, which is
the general handler ('general' itself also reaches the general handler).
`none` models the TypeError thrown by reading `.type` when the classified
intent is JSON null. -/
def dispatchIntent (intent : JsonValue) : Option Handler :=
  match intent with
  | JsonValue.null => none
  | v =>
    some (match jsGetField v "type" with
      | some (JsonValue.str "request") => Handler.request
      | some (JsonValue.str "status") => Handler.status
      | some (JsonValue.str "tasks") => Handler.tasks
      | some (JsonValue.str "respond") => Handler.respond
      | _ => Handler.general)

/-- RoutingDecision (agent.ts interface). -/
structure RoutingDecision where
  targetUserId : Option String
  targetTeam : Option String
  confidence : Rat
  reasoning : String
  formattedRequest : String
deriving DecidableEq

/-- Field-by-field reading of the parsed routing reply.  The TS source simply
casts `JSON.parse(...)` to RoutingDecision, performing no validation; this
decoder reads each field the way the call sites consume it (string-or-absent;
a non-string scalar in a string position is read as absent). -/
def decodeRoutingDecision (v : JsonValue) : RoutingDecision :=
  { targetUserId := jsonString? (jsGetField v "targetUserId")
    targetTeam := jsonString? (jsGetField v "targetTeam")
    confidence := match jsGetField v "confidence" with
      | some (JsonValue.num q) => q
      | _ => 0
    reasoning := (jsonString? (jsGetField v "reasoning")).getD ""
    formattedRequest := (jsonString? (jsGetField v "formattedRequest")).getD "" }

/-- `routeRequest` (agent.ts): parse the completion reply; on JSON.parse
failure fall back to the zero-confidence decision with both targets null and
`formattedRequest` echoing the original message. -/
def routeRequest (parsed : Option JsonValue) (message : String) : RoutingDecision :=
  match parsed with
  | some v => decodeRoutingDecision v
  | none =>
    { targetUserId := none
      targetTeam := none
      confidence := 0
      reasoning := "Failed to parse routing response"
      formattedRequest := message }

/-- The natural-language replies `handleNewRequest` / `handleResponseToRequest`
return, abstracted to their branch identity plus the data interpolated into
the string. -/
inductive AgentReply where
  | clarifyWho (message : String)
  | clarifyPerson (team : Option String)
  | requestSent (targetName : String) (formatted : String)
  | noPendingTasks
  | requestNotFound
  | responseSent (fromUserId : String) (response : String)
deriving DecidableEq

/-- Events pushed through `this.emit(...)`. -/
inductive AgentEvent where
  | requestCreated (r : Request)
  | requestCompleted (r : Request) (response : String)
  | taskCreated (r : Request)
  | messageSent (r : Request) (followUp : String)
deriving DecidableEq

/-- `extractSubject`: first 8 space-separated words, with an ellipsis when the
message is longer. -/
def extractSubject (message : String) : String :=
  let ws := message.splitOn " "
  String.intercalate " " (ws.take 8) ++ (if ws.length > 8 then "..." else "")

/-- Lines 139-148 of handleNewRequest: resolve the routing decision to a
target user — by id when `targetUserId` is truthy, otherwise via the first
member of the named team (`team.members.length > 0` guard, `members[0]`). -/
def resolveTargetUser (orgCtx : OrgContext) (st : Storage) (routing : RoutingDecision) :
    Option User :=
  if jsTruthyOptStr routing.targetUserId then
    st.getUser (routing.targetUserId.getD "")
  else if jsTruthyOptStr routing.targetTeam then
    match orgCtx.teams.find? (fun t => t.name = routing.targetTeam.getD "") with
    | some team =>
      match team.members with
      | m :: _ => st.getUser m
      | [] => none
    | none => none
  else none

/-- `handleNewRequest` (agent.ts): route, resolve the target, and on success
create the Request (status pending) and the mirroring Task, then emit
`request.created`; on an unresolved target return a clarification reply
without touching the store. -/
def handleNewRequest (orgCtx : OrgContext) (self : User) (agent : AgentRec)
    (st : Storage) (now : Int) (routingReply : Option JsonValue) (message : String) :
    Storage × AgentReply × List AgentEvent :=
  let routing := routeRequest routingReply message
  if !jsTruthyOptStr routing.targetUserId && !jsTruthyOptStr routing.targetTeam then
    (st, AgentReply.clarifyWho message, [])
  else
    match resolveTargetUser orgCtx st routing with
    | none => (st, AgentReply.clarifyPerson routing.targetTeam, [])
    | some targetUser =>
      let p1 := st.createRequest now
        { fromUserId := self.id
          fromAgentId := agent.id
          toUserId := some targetUser.id
          toAgentId := (st.getAgentByUserId targetUser.id).map (fun a => a.id)
          subject := extractSubject message
          description := routing.formattedRequest
          status := ReqStatus.pending
          priority := Priority.normal }
      let p2 := p1.1.createTask now
        { userId := targetUser.id
          requestId := p1.2.id
          title := "Request from " ++ self.name
          description := routing.formattedRequest
          status := TaskStatus.pending
          priority := Priority.normal }
      (p2.1, AgentReply.requestSent targetUser.name routing.formattedRequest,
        [AgentEvent.requestCreated p1.2])

/-- Decimal reading of a digit run, as `parseInt` does on the regex capture. -/
def charsToNat (ds : List Char) : Nat :=
  ds.foldl (fun acc c => 10 * acc + (c.toNat - '0'.toNat)) 0

/-- JS `String.prototype.trim`: drop leading and trailing whitespace. -/
def trimStr (s : String) : String :=
  String.mk (((s.toList.dropWhile Char.isWhitespace).reverse.dropWhile
    Char.isWhitespace).reverse)

/-- The regex match `/^(\d+)[.:\s]/`: a leading run of digits followed by '.',
':' or whitespace; returns the parsed number. -/
def parseLeadingNum (message : String) : Option Nat :=
  let cs := message.toList
  let ds := cs.takeWhile Char.isDigit
  match ds, cs.drop ds.length with
  | [], _ => none
  | _ :: _, c :: _ =>
    if c = '.' || c = ':' || c.isWhitespace then
      some (charsToNat ds)
    else none
  | _ :: _, [] => none

/-- `message.replace(/^\d+[.:\s]+/, '').trim()`: strip a leading digit run
plus the following separator run, then trim. -/
def cleanedResponse (message : String) : String :=
  let cs := message.toList
  let ds := cs.takeWhile Char.isDigit
  let rest := cs.drop ds.length
  let stripped := match ds, rest with
    | _ :: _, c :: _ =>
      if c = '.' || c = ':' || c.isWhitespace then
        String.mk (rest.dropWhile (fun x => x = '.' || x = ':' || x.isWhitespace))
      else message
    | _, _ => message
  trimStr stripped

/-- Lines 281-289: `let targetTask = tasks[0]; if (numMatch) { const idx =
parseInt(numMatch[1]) - 1; if (idx >= 0 && idx < tasks.length) targetTask =
tasks[idx]; }` — the index is a JS number, so the bound checks are integer
comparisons. -/
def selectRespondTask (tasks : List Task) (t0 : Task) (message : String) : Task :=
  match parseLeadingNum message with
  | some n =>
    let idx : Int := (n : Int) - 1
    if 0 ≤ idx ∧ idx < (tasks.length : Int) then tasks.getD idx.toNat t0 else t0
  | none => t0

/-- `handleResponseToRequest` (agent.ts): pick the target pending task (first
by the priority-then-creation order, unless an in-bounds 1-based numeric
prefix selects another), complete its request with the cleaned response,
complete the task, and emit `request.completed`. -/
def handleResponseToRequest (st : Storage) (self : User) (now : Int) (message : String) :
    Storage × AgentReply × List AgentEvent :=
  match st.getTasksForUser self.id (some TaskStatus.pending) with
  | [] => (st, AgentReply.noPendingTasks, [])
  | t0 :: rest =>
    let targetTask := selectRespondTask (t0 :: rest) t0 message
    match st.getRequest targetTask.requestId with
    | none => (st, AgentReply.requestNotFound, [])
    | some request =>
      let cleanResponse := cleanedResponse message
      let st1 := st.updateRequest now request.id
        { status := some ReqStatus.completed
          response := some cleanResponse
          completedAt := some now }
      let st2 := st1.updateTask now targetTask.id (some TaskStatus.completed)
      (st2, AgentReply.responseSent request.fromUserId cleanResponse,
        [AgentEvent.requestCompleted request cleanResponse])

/-- The memory context block `handleGeneralQuery` appends to the user
message. -/
def memoryContext (memories : List Memory) : String :=
  if memories.length > 0 then
    "\n\nRelevant context from team knowledge:\n"
      ++ String.intercalate "\n" (memories.map (fun m => "- " ++ m.content))
  else ""

/-- The prompt `handleGeneralQuery` sends to the completion service:
the message followed by the context built from `searchMemories(message, 5)`. -/
def generalQueryPrompt (st : Storage) (message : String) : String :=
  message ++ memoryContext (st.searchMemories message 5)

/-- Milliseconds per hour, the `1000 * 60 * 60` divisor in processFollowUps. -/
def msPerHour : Int := 1000 * 60 * 60

/-- `const lastActivity = r.lastFollowUp || r.createdAt` (a Date object is
always truthy, so this is exactly a null/undefined default). -/
def lastActivity (r : Request) : Int := r.lastFollowUp.getD r.createdAt

/-- `hoursSinceActivity = (Date.now() - lastActivity.getTime()) / (1000*60*60)`
— exact rational division standing in for the JS float division (they agree
on every integer-millisecond input at the `>= 24` threshold). -/
def hoursSince (now last : Int) : Rat := ((now - last : Int) : Rat) / ((msPerHour : Int) : Rat)

/-- `this.config.maxFollowUps || 3`: JS `||` replaces a missing *or zero*
configured value with 3 (0 is falsy). -/
def effMaxFollowUps (cfg : Option Nat) : Nat :=
  match cfg with
  | none => 3
  | some 0 => 3
  | some (n + 1) => n + 1

/-- The staleness filter predicate inside `processFollowUps`. -/
def followUpDue (cfg : Option Nat) (now : Int) (r : Request) : Bool :=
  if r.status = ReqStatus.completed ∨ r.status = ReqStatus.cancelled then false
  else if effMaxFollowUps cfg ≤ r.followUpCount then false
  else decide (24 ≤ hoursSince now (lastActivity r))

/-- `staleRequests` — the list `processFollowUps` iterates over: the user's
outgoing requests passing the staleness filter. -/
def staleRequests (cfg : Option Nat) (st : Storage) (userId : String) (now : Int) :
    List Request :=
  (st.getRequestsByFromUser userId).filter (followUpDue cfg now)

/-- Lines 376-377 of sendFollowUp: `request.toUserId ?
this.storage.getUser(request.toUserId) : null` (an empty-string id is falsy
and also yields null). -/
def followUpTarget (st : Storage) (r : Request) : Option User :=
  match r.toUserId with
  | some tid => if tid = "" then none else st.getUser tid
  | none => none

/-- `sendFollowUp` (agent.ts): skip entirely when the target user cannot be
resolved; otherwise generate the follow-up text (`gen` models the completion
call), bump the counter, stamp `lastFollowUp`, append the follow_up Message
and emit `message.sent`. -/
def sendFollowUp (gen : Request → String) (agent : AgentRec) (st : Storage)
    (r : Request) (now : Int) : Storage × List AgentEvent :=
  match followUpTarget st r with
  | none => (st, [])
  | some _ =>
    let content := gen r
    let st1 := st.updateRequest now r.id
      { followUpCount := some (r.followUpCount + 1)
        lastFollowUp := some now }
    let p := st1.createMessage now
      { requestId := some r.id
        fromAgentId := agent.id
        toAgentId := r.toAgentId.getD agent.id
        content := content
        type := "follow_up"
        isPublic := false }
    (p.1, [AgentEvent.messageSent r content])

/-- `processFollowUps` (agent.ts): filter the user's outgoing requests with
the staleness predicate, then send a follow-up for each selected request in
order. -/
def processFollowUps (cfg : Option Nat) (gen : Request → String) (agent : AgentRec)
    (st : Storage) (userId : String) (now : Int) : Storage × List AgentEvent :=
  (staleRequests cfg st userId now).foldl
    (fun acc r =>
      let p := sendFollowUp gen agent acc.1 r now
      (p.1, acc.2 ++ p.2))
    (st, [])

/-- An event-bus handler, abstracted to an identity plus whether invoking it
throws. -/
structure BusHandler where
  hid : Nat
  throws : Bool
deriving DecidableEq

/-- The `Map<string, EventHandler[]>` of the agent, as an association list in
key-insertion order. -/
structure EventBus where
  handlers : List (String × List BusHandler)
deriving DecidableEq

/-- `this.eventHandlers.get(type) || []`. -/
def busLookup (bus : EventBus) (etype : String) : List BusHandler :=
  match bus.handlers.find? (fun p => p.1 = etype) with
  | some p => p.2
  | none => []

/-- `on(eventType, handler)`: create the key's list if absent, then push. -/
def busOn (bus : EventBus) (etype : String) (h : BusHandler) : EventBus :=
  if (bus.handlers.find? (fun p => p.1 = etype)).isSome then
    { handlers := bus.handlers.map (fun p => if p.1 = etype then (p.1, p.2 ++ [h]) else p) }
  else
    { handlers := bus.handlers ++ [(etype, [h])] }

/-- Run a handler list the way `handlers.forEach(h => h(event))` does: in
order, with the first thrown exception propagating immediately (no per-handler
isolation in the source).  Returns the ids actually invoked and whether an
exception escaped. -/
def runHandlers : List BusHandler → List Nat × Bool
  | [] => ([], false)
  | h :: rest =>
    if h.throws then ([h.hid], true)
    else
      let p := runHandlers rest
      (h.hid :: p.1, p.2)

/-- `emit(event)`: run the exact-type handlers, then the wildcard handlers;
an exception from the first forEach aborts the wildcard phase too. -/
def busEmit (bus : EventBus) (etype : String) : List Nat × Bool :=
  let p1 := runHandlers (busLookup bus etype)
  if p1.2 then p1
  else
    let p2 := runHandlers (busLookup bus "*")
    (p1.1 ++ p2.1, p2.2)

/-! General lemmas about the embedded operations. -/

lemma mem_insertLE {α : Type} (le : α → α → Bool) (x a : α) (l : List α) :
    a ∈ insertLE le x l ↔ a = x ∨ a ∈ l := by
  induction l with
  | nil => simp [insertLE]
  | cons b bs ih =>
    unfold insertLE
    by_cases h : le x b
    · simp [h]
    · simp [h, ih]
      tauto

lemma mem_sortLE {α : Type} (le : α → α → Bool) (a : α) (l : List α) :
    a ∈ sortLE le l ↔ a ∈ l := by
  induction l with
  | nil => simp [sortLE]
  | cons b bs ih =>
    unfold sortLE
    rw [mem_insertLE]
    simp [ih]

lemma memFilter_and (q : String) (l : List Memory) :
    l.filter (fun m => m.isPublic && Storage.likeContains m.content q)
      = (l.filter (fun m => m.isPublic)).filter
          (fun m => Storage.likeContains m.content q) := by
  induction l with
  | nil => rfl
  | cons a as ih =>
    by_cases hp : a.isPublic <;> by_cases hq : Storage.likeContains a.content q <;>
      simp [List.filter_cons, hp, hq, ih]

lemma getUser_id (st : Storage) (i : String) (u : User) (h : st.getUser i = some u) :
    u.id = i := by
  unfold Storage.getUser at h
  have hp := List.find?_some h
  simpa using hp

lemma getUser_self (st : Storage) (i : String) (u : User) (h : st.getUser i = some u) :
    st.getUser u.id = some u := by
  rw [getUser_id st i u h]
  exact h

lemma getRequest_id (st : Storage) (i : String) (r : Request)
    (h : st.getRequest i = some r) : r.id = i := by
  unfold Storage.getRequest at h
  have hp := List.find?_some h
  simpa using hp

lemma getRequest_self (st : Storage) (i : String) (r : Request)
    (h : st.getRequest i = some r) : st.getRequest r.id = some r := by
  rw [getRequest_id st i r h]
  exact h

lemma applyRequestUpdate_id (now : Int) (u : Storage.RequestUpdate) (r : Request) :
    (Storage.applyRequestUpdate now u r).id = r.id := by
  unfold Storage.applyRequestUpdate
  cases u.status <;> cases u.toUserId <;> cases u.toAgentId <;> cases u.response <;>
    cases u.followUpCount <;> cases u.lastFollowUp <;> cases u.completedAt <;> rfl

lemma getRequest_updateRequest (st : Storage) (now : Int) (id : String)
    (u : Storage.RequestUpdate) :
    (st.updateRequest now id u).getRequest id
      = (st.getRequest id).map (Storage.applyRequestUpdate now u) := by
  unfold Storage.updateRequest Storage.getRequest
  simp only
  induction st.requests with
  | nil => rfl
  | cons r rs ih =>
    simp only [List.map_cons]
    by_cases h : r.id = id
    · rw [if_pos h]
      have ha : List.find? (fun x : Request => decide (x.id = id))
          (Storage.applyRequestUpdate now u r
            :: List.map (fun x => if x.id = id then Storage.applyRequestUpdate now u x else x) rs)
          = some (Storage.applyRequestUpdate now u r) := by
        apply List.find?_cons_of_pos
        simp [applyRequestUpdate_id, h]
      have hb : List.find? (fun x : Request => decide (x.id = id)) (r :: rs) = some r := by
        apply List.find?_cons_of_pos
        simp [h]
      rw [ha, hb]
      rfl
    · rw [if_neg h]
      have ha : List.find? (fun x : Request => decide (x.id = id))
          (r :: List.map (fun x => if x.id = id then Storage.applyRequestUpdate now u x else x) rs)
          = List.find? (fun x : Request => decide (x.id = id))
              (List.map (fun x => if x.id = id then Storage.applyRequestUpdate now u x else x) rs) := by
        apply List.find?_cons_of_neg
        simp [h]
      have hb : List.find? (fun x : Request => decide (x.id = id)) (r :: rs)
          = List.find? (fun x : Request => decide (x.id = id)) rs := by
        apply List.find?_cons_of_neg
        simp [h]
      rw [ha, hb]
      exact ih

lemma getRequest_updateTask (st : Storage) (now : Int) (id : String)
    (status : Option TaskStatus) (i : String) :
    (st.updateTask now id status).getRequest i = st.getRequest i := rfl

lemma resolveTargetUser_getUser (orgCtx : OrgContext) (st : Storage)
    (routing : RoutingDecision) (u : User)
    (h : resolveTargetUser orgCtx st routing = some u) :
    st.getUser u.id = some u := by
  unfold resolveTargetUser at h
  split at h
  · exact getUser_self _ _ _ h
  · split at h
    · split at h
      · split at h
        · exact getUser_self _ _ _ h
        · exact absurd h (by simp)
      · exact absurd h (by simp)
    · exact absurd h (by simp)

/-! Concrete fixtures. -/

/-- A requester. -/
def aliceU : User := { id := "alice", name := "Alice" }

/-- A recipient. -/
def bobU : User := { id := "bob", name := "Bob" }

/-- The request Alice sent to Bob in the double-completion scenario. -/
def c6Request : Request :=
  { id := "r1", fromUserId := "alice", fromAgentId := "agA", toUserId := some "bob"
    toAgentId := some "agB", subject := "subj", description := "desc"
    status := ReqStatus.pending, priority := Priority.normal, followUpCount := 0
    lastFollowUp := none, createdAt := 0, updatedAt := 0, completedAt := none
    response := none }

/-- Bob's first queue entry for `c6Request` (a duplicate task for the same
request can arise from `handleIncomingRequest`, which unconditionally creates
a task mirroring an existing request). -/
def c6Task1 : Task :=
  { id := "t1", userId := "bob", requestId := "r1", title := "Request from Alice"
    description := "desc", status := TaskStatus.pending, priority := Priority.normal
    createdAt := 1, updatedAt := 1, completedAt := none }

/-- Bob's second queue entry for the same request. -/
def c6Task2 : Task :=
  { id := "t2", userId := "bob", requestId := "r1", title := "Request from Alice"
    description := "desc", status := TaskStatus.pending, priority := Priority.normal
    createdAt := 2, updatedAt := 2, completedAt := none }

/-- Store for the double-completion scenario. -/
def c6Store : Storage :=
  { users := [aliceU, bobU]
    agents := [{ id := "agA", userId := "alice", name := "A" },
               { id := "agB", userId := "bob", name := "B" }]
    requests := [c6Request]
    tasks := [c6Task1, c6Task2]
    messages := []
    memories := []
    nextId := 0 }

/-! Claim theorems. -/

/-- C6: the code violates the claim.  `updateRequest` has no terminal-state
guard, so a second completion of the same request silently re-writes the
stored `response` and `completedAt`: after Bob answers "1. yes" at time 100
the request holds response "yes" / completedAt 100, and a second respond
message "2. no" at time 200 (served by the second pending task for the same
request) silently overwrites them with "no" / 200. -/
theorem C6_double_completion_rewrites :
    ((handleResponseToRequest c6Store bobU 100 "1. yes").1.getRequest "r1").map
        (fun r => (r.status, r.response, r.completedAt))
      = some (ReqStatus.completed, some "yes", some 100)
    ∧ (((handleResponseToRequest (handleResponseToRequest c6Store bobU 100 "1. yes").1
          bobU 200 "2. no").1.getRequest "r1").map
        (fun r => (r.status, r.response, r.completedAt))
      = some (ReqStatus.completed, some "no", some 200)) := by
  constructor
  · decide
  · decide

/-- C8: the code violates the isolation clause of the claim.  `emit` runs
handlers with a bare `forEach`, so a handler that throws propagates its
exception and the remaining handlers are skipped: with handlers 0 (throwing)
and 1 registered for `request.created`, emitting invokes only handler 0 and
the exception escapes.  For contrast, when no handler throws every exact-type
handler and then every wildcard handler is invoked in registration order. -/
theorem C8_throwing_handler_skips_rest :
    busEmit (busOn (busOn { handlers := [] } "request.created" { hid := 0, throws := true })
        "request.created" { hid := 1, throws := false }) "request.created"
      = ([0], true)
    ∧ busEmit (busOn (busOn (busOn { handlers := [] }
          "request.created" { hid := 0, throws := false })
          "request.created" { hid := 1, throws := false })
          "*" { hid := 2, throws := false }) "request.created"
      = ([0, 1, 2], false) := by
  constructor
  · rfl
  · rfl

/-- C7 counterexample: `routeRequest` returns the parsed completion reply
without validating the at-most-one-target requirement, so a reply naming both
a target user and a target team yields a RoutingDecision with both fields
non-null, contradicting the claim. -/
theorem C7_counterexample_both_targets :
    (routeRequest (some (JsonValue.obj
        [("targetUserId", JsonValue.str "u1"), ("targetTeam", JsonValue.str "Legal")]))
        "msg").targetUserId = some "u1"
    ∧ (routeRequest (some (JsonValue.obj
        [("targetUserId", JsonValue.str "u1"), ("targetTeam", JsonValue.str "Legal")]))
        "msg").targetTeam = some "Legal" := by
  exact ⟨rfl, rfl⟩

/-- C7 amended: the at-most-one guarantee holds only on the parse-failure
path: when the completion reply is not valid JSON, `routeRequest` returns the
fallback decision with both targets null, confidence 0, the fixed failure
reasoning, and `formattedRequest` echoing the original message; a parsable
reply is decoded without validation and may carry both targets. -/
theorem C7_amended_fallback_decision (message : String) :
    (routeRequest none message).targetUserId = none
    ∧ (routeRequest none message).targetTeam = none
    ∧ (routeRequest none message).confidence = 0
    ∧ (routeRequest none message).formattedRequest = message
    ∧ (routeRequest none message).reasoning = "Failed to parse routing response" := by
  exact ⟨rfl, rfl, rfl, rfl, rfl⟩

/-- C3 counterexample: `classifyIntent` returns the parsed reply unvalidated,
so a valid-JSON reply with type "banana" yields an intent whose type field is
"banana" (not one of the five intents), and a valid-JSON reply lacking the
type field yields an intent with no type field at all rather than 'general'. -/
theorem C3_counterexample_unvalidated_type :
    jsGetField (classifyIntent (some (JsonValue.obj [("type", JsonValue.str "banana")]))) "type"
      = some (JsonValue.str "banana")
    ∧ "banana" ∉ (["request", "status", "tasks", "respond", "general"] : List String)
    ∧ jsGetField (classifyIntent (some (JsonValue.obj []))) "type" = none := by
  refine ⟨rfl, by decide, rfl⟩

/-- C3 amended: `classifyIntent` never throws; a reply on which JSON.parse
throws yields the literal general intent, while a parsable reply is returned
unvalidated (its type field may be any value or absent).  It is the
`handleUserMessage` switch that routes every unrecognized or absent type to
the general handler; the one exception is a reply parsing to JSON null, where
reading `.type` throws a TypeError. -/
theorem C3_amended_fails_safe :
    jsGetField (classifyIntent none) "type" = some (JsonValue.str "general")
    ∧ (∀ v, classifyIntent (some v) = v)
    ∧ (∀ parsed, parsed ≠ some JsonValue.null →
        ∃ h, dispatchIntent (classifyIntent parsed) = some h)
    ∧ dispatchIntent (classifyIntent (some JsonValue.null)) = none
    ∧ (∀ v, v ≠ JsonValue.null →
        (∀ s, s ∈ (["request", "status", "tasks", "respond"] : List String) →
          jsGetField v "type" ≠ some (JsonValue.str s)) →
        dispatchIntent v = some Handler.general) := by
  refine ⟨rfl, fun v => rfl, ?_, rfl, ?_⟩
  · intro parsed hne
    cases parsed with
    | none => exact ⟨Handler.general, rfl⟩
    | some v =>
      cases v with
      | null => exact absurd rfl hne
      | bool b => exact ⟨Handler.general, rfl⟩
      | num q => exact ⟨Handler.general, rfl⟩
      | str s => exact ⟨Handler.general, rfl⟩
      | arr elems => exact ⟨_, rfl⟩
      | obj fields => exact ⟨_, rfl⟩
  · intro v hnull hfield
    cases v with
    | null => exact absurd rfl hnull
    | bool b => rfl
    | num q => rfl
    | str s => rfl
    | arr elems => rfl
    | obj fields =>
      unfold dispatchIntent
      cases hj : jsGetField (JsonValue.obj fields) "type" with
      | none => simp [hj]
      | some jv =>
        cases jv with
        | str s =>
          by_cases h1 : s = "request"
          · exact absurd (h1 ▸ hj) (hfield "request" (by simp))
          · by_cases h2 : s = "status"
            · exact absurd (h2 ▸ hj) (hfield "status" (by simp))
            · by_cases h3 : s = "tasks"
              · exact absurd (h3 ▸ hj) (hfield "tasks" (by simp))
              · by_cases h4 : s = "respond"
                · exact absurd (h4 ▸ hj) (hfield "respond" (by simp))
                · simp [hj, h1, h2, h3, h4]
        | null => simp [hj]
        | bool b => simp [hj]
        | num q => simp [hj]
        | arr elems => simp [hj]
        | obj fs => simp [hj]

/-- C3 witness for the amended theorem: at the concrete parsed reply
`{"type": "banana"}` the dispatch lands on the general handler. -/
theorem C3_amended_witness :
    dispatchIntent (JsonValue.obj [("type", JsonValue.str "banana")]) = some Handler.general :=
  C3_amended_fails_safe.2.2.2.2 (JsonValue.obj [("type", JsonValue.str "banana")])
    (by simp)
    (by
      intro s hs
      fin_cases hs <;> simp [jsGetField])

/-- C10: every memory returned by `searchMemories` is public (the query
filters on `is_public = 1`), and consequently `handleGeneralQuery` builds the
same completion-service prompt on any two stores that agree on their public
memories — private notes never influence general-query answers. -/
theorem C10_private_memories_noninterference :
    (∀ (st : Storage) (q : String) (lim : Nat) (m : Memory),
        m ∈ st.searchMemories q lim → m.isPublic = true)
    ∧ (∀ (st1 st2 : Storage) (message : String),
        st1.memories.filter (fun m => m.isPublic) = st2.memories.filter (fun m => m.isPublic) →
        generalQueryPrompt st1 message = generalQueryPrompt st2 message) := by
  constructor
  · intro st q lim m hm
    unfold Storage.searchMemories at hm
    have hm2 := List.mem_of_mem_take hm
    rw [mem_sortLE] at hm2
    have hm3 := List.of_mem_filter hm2
    exact (Bool.and_eq_true _ _).mp hm3 |>.1
  · intro st1 st2 message h
    unfold generalQueryPrompt Storage.searchMemories
    rw [memFilter_and, memFilter_and, h]

/-- Public memory note used in the C10 witness. -/
def pubMem : Memory :=
  { id := "m1", type := "fact", content := "the api key rotates monthly"
    source := "alice", isPublic := true, createdAt := 5 }

/-- Private memory note (matches the query) used in the C10 witness. -/
def privMem : Memory :=
  { id := "m2", type := "fact", content := "secret api budget"
    source := "alice", isPublic := false, createdAt := 6 }

/-- Store without the private note. -/
def c10StoreA : Storage :=
  { users := [aliceU], agents := [], requests := [], tasks := [], messages := []
    memories := [pubMem], nextId := 0 }

/-- Store with an extra private note matching the query. -/
def c10StoreB : Storage :=
  { users := [aliceU], agents := [], requests := [], tasks := [], messages := []
    memories := [pubMem, privMem], nextId := 0 }

/-- C10 witness: two concrete stores differing only in a private note (which
matches the query) produce the same general-query prompt. -/
theorem C10_witness :
    generalQueryPrompt c10StoreA "api" = generalQueryPrompt c10StoreB "api" :=
  C10_private_memories_noninterference.2 c10StoreA c10StoreB "api" (by decide)

/-- C9: when a follow-up-eligible request's target cannot be resolved
(`toUserId` unset, empty, or naming no stored user), `sendFollowUp` returns
the store unchanged and publishes nothing — the follow-up counter is not
burnt, no Message is created; if every stale request of a user is
unresolvable, the whole `processFollowUps` pass leaves the store unchanged. -/
theorem C9_unresolved_target_skipped :
    (∀ (gen : Request → String) (agent : AgentRec) (st : Storage) (r : Request) (now : Int),
        followUpTarget st r = none →
        sendFollowUp gen agent st r now = (st, []))
    ∧ (∀ (cfg : Option Nat) (gen : Request → String) (agent : AgentRec) (st : Storage)
          (userId : String) (now : Int),
        (∀ r ∈ staleRequests cfg st userId now, followUpTarget st r = none) →
        processFollowUps cfg gen agent st userId now = (st, [])) := by
  constructor
  · intro gen agent st r now h
    unfold sendFollowUp
    rw [h]
  · intro cfg gen agent st userId now h
    unfold processFollowUps
    have key : ∀ (l : List Request), (∀ r ∈ l, followUpTarget st r = none) →
        l.foldl (fun acc r =>
          let p := sendFollowUp gen agent acc.1 r now
          (p.1, acc.2 ++ p.2)) (st, []) = (st, []) := by
      intro l
      induction l with
      | nil => intro _; rfl
      | cons r rs ih =>
        intro hall
        have h1 : sendFollowUp gen agent st r now = (st, []) := by
          unfold sendFollowUp
          rw [hall r (by simp)]
        simp only [List.foldl_cons, h1]
        exact ih (fun x hx => hall x (by simp [hx]))
    exact key _ h

/-- Stale request whose target user does not exist in the store. -/
def c9Request : Request :=
  { id := "r9", fromUserId := "alice", fromAgentId := "agA", toUserId := some "ghost"
    toAgentId := none, subject := "subj", description := "desc"
    status := ReqStatus.pending, priority := Priority.normal, followUpCount := 0
    lastFollowUp := none, createdAt := 0, updatedAt := 0, completedAt := none
    response := none }

/-- Store for the C9 witness: the only request points at an unknown user and
is 25 hours stale. -/
def c9Store : Storage :=
  { users := [aliceU], agents := [{ id := "agA", userId := "alice", name := "A" }]
    requests := [c9Request], tasks := [], messages := [], memories := [], nextId := 0 }

/-- C9 witness: at the concrete store the skip happens, both for the single
`sendFollowUp` and for the whole `processFollowUps` pass at a 25-hour-stale
instant. -/
theorem C9_witness :
    sendFollowUp (fun _ => "ping") { id := "agA", userId := "alice", name := "A" }
        c9Store c9Request 90000000 = (c9Store, [])
    ∧ processFollowUps none (fun _ => "ping") { id := "agA", userId := "alice", name := "A" }
        c9Store "alice" 90000000 = (c9Store, []) := by
  constructor
  · exact C9_unresolved_target_skipped.1 (fun _ => "ping")
      { id := "agA", userId := "alice", name := "A" } c9Store c9Request 90000000 (by decide)
  · refine C9_unresolved_target_skipped.2 none (fun _ => "ping")
      { id := "agA", userId := "alice", name := "A" } c9Store "alice" 90000000 ?_
    intro r hr
    unfold staleRequests at hr
    have hr2 := List.mem_of_mem_filter hr
    have hl : Storage.getRequestsByFromUser c9Store "alice" = [c9Request] := by decide
    rw [hl] at hr2
    simp only [List.mem_singleton] at hr2
    rw [hr2]
    decide

/-- The follow-up selection predicate exactly as the claim words it: status
non-terminal, `followUpCount` strictly below the configured `maxFollowUps`
(defaulting to 3 when unset), and at least 24 hours elapsed since
`lastFollowUp` (or `createdAt` when never followed up). -/
def claimFollowUpDue (cfg : Option Nat) (now : Int) (r : Request) : Prop :=
  ¬(r.status = ReqStatus.completed ∨ r.status = ReqStatus.cancelled)
  ∧ r.followUpCount < cfg.getD 3
  ∧ 24 * msPerHour ≤ now - lastActivity r

/-- The 24-hour float comparison agrees with the exact millisecond bound. -/
lemma hoursSince_ge24_iff (now last : Int) :
    (24 ≤ hoursSince now last) ↔ 24 * msPerHour ≤ now - last := by
  unfold hoursSince msPerHour
  rw [le_div_iff₀ (by norm_num)]
  constructor
  · intro h
    exact_mod_cast h
  · intro h
    exact_mod_cast h

/-- Pointwise characterization of the staleness filter. -/
lemma followUpDue_iff (cfg : Option Nat) (now : Int) (r : Request) :
    followUpDue cfg now r = true
      ↔ ¬(r.status = ReqStatus.completed ∨ r.status = ReqStatus.cancelled)
        ∧ r.followUpCount < effMaxFollowUps cfg
        ∧ 24 * msPerHour ≤ now - lastActivity r := by
  unfold followUpDue
  by_cases h1 : r.status = ReqStatus.completed ∨ r.status = ReqStatus.cancelled
  · simp [h1]
  · rw [if_neg h1]
    by_cases h2 : effMaxFollowUps cfg ≤ r.followUpCount
    · simp [h2, h1]
    · rw [if_neg h2]
      simp [h1, hoursSince_ge24_iff]
      omega

/-- C2 counterexample: the claim's predicate reads `maxFollowUps` as the
configured value with default 3, but the code computes
`this.config.maxFollowUps || 3`, and JS `||` also replaces a configured 0
(falsy) by 3: with `maxFollowUps = 0` a pending request 24h old is selected
by the code although `followUpCount < 0` is false. -/
theorem C2_counterexample_zero_config :
    followUpDue (some 0) 86400000
      { id := "r", fromUserId := "a", fromAgentId := "ag", toUserId := some "b"
        toAgentId := none, subject := "s", description := "d"
        status := ReqStatus.pending, priority := Priority.normal, followUpCount := 0
        lastFollowUp := none, createdAt := 0, updatedAt := 0, completedAt := none
        response := none } = true
    ∧ ¬ claimFollowUpDue (some 0) 86400000
      { id := "r", fromUserId := "a", fromAgentId := "ag", toUserId := some "b"
        toAgentId := none, subject := "s", description := "d"
        status := ReqStatus.pending, priority := Priority.normal, followUpCount := 0
        lastFollowUp := none, createdAt := 0, updatedAt := 0, completedAt := none
        response := none } := by
  constructor
  · rw [followUpDue_iff]
    refine ⟨by decide, by decide, by decide⟩
  · intro h
    have h2 := h.2.1
    simp [Option.getD] at h2

/-- C2 amended: a request is selected by the follow-up scan iff it is among
the user's outgoing requests, its status is neither completed nor cancelled,
its `followUpCount` is strictly below the *effective* max (the configured
`maxFollowUps` when set and nonzero, 3 when unset — and, due to JS falsy
defaulting, also 3 when configured as 0), and at least 24 hours elapsed since
`lastFollowUp` (or `createdAt`); under the default configuration a fresh
request is not selected at 23h, is selected at 24h, and is never selected
once its count reaches 3. -/
theorem C2_amended_selection_predicate :
    (∀ (cfg : Option Nat) (st : Storage) (userId : String) (now : Int) (r : Request),
        r ∈ staleRequests cfg st userId now
          ↔ r ∈ st.getRequestsByFromUser userId
            ∧ ¬(r.status = ReqStatus.completed ∨ r.status = ReqStatus.cancelled)
            ∧ r.followUpCount < effMaxFollowUps cfg
            ∧ 24 * msPerHour ≤ now - lastActivity r)
    ∧ (∀ r : Request, r.status = ReqStatus.pending → r.followUpCount = 0 →
        r.lastFollowUp = none →
        followUpDue none (r.createdAt + 23 * msPerHour) r = false
        ∧ followUpDue none (r.createdAt + 24 * msPerHour) r = true)
    ∧ (∀ (cfg : Option Nat) (now : Int) (r : Request),
        effMaxFollowUps cfg ≤ r.followUpCount → followUpDue cfg now r = false) := by
  refine ⟨?_, ?_, ?_⟩
  · intro cfg st userId now r
    unfold staleRequests
    rw [List.mem_filter, followUpDue_iff]
  · intro r hst hcnt hlast
    constructor
    · rw [← Bool.not_eq_true, followUpDue_iff]
      intro h
      have h3 := h.2.2
      unfold lastActivity at h3
      rw [hlast] at h3
      simp only [Option.getD] at h3
      unfold msPerHour at h3
      omega
    · rw [followUpDue_iff]
      refine ⟨?_, ?_, ?_⟩
      · rw [hst]
        simp
      · rw [hcnt]
        simp [effMaxFollowUps]
      · unfold lastActivity
        rw [hlast]
        simp only [Option.getD]
        omega
  · intro cfg now r h
    rw [← Bool.not_eq_true, followUpDue_iff]
    intro hc
    omega

/-- C2 witness for the amended theorem: a concrete fresh pending request is
not selected 23 hours after creation and is selected 24 hours after. -/
theorem C2_amended_witness :
    followUpDue none (c9Request.createdAt + 23 * msPerHour) c9Request = false
    ∧ followUpDue none (c9Request.createdAt + 24 * msPerHour) c9Request = true :=
  C2_amended_selection_predicate.2.1 c9Request rfl rfl rfl

/-- C1: handling a new-request message is all-or-nothing.  Either the store
is returned untouched with no event (the clarification paths), or exactly one
new Request (status pending, targeted at the resolved stored user) and
exactly one new Task (owned by that user, status pending, referencing that
Request) are appended — nothing else changes — and exactly the
`request.created` event is published. -/
theorem C1_createRequest_all_or_nothing (orgCtx : OrgContext) (self : User)
    (agent : AgentRec) (st : Storage) (now : Int) (routingReply : Option JsonValue)
    (message : String) :
    ((handleNewRequest orgCtx self agent st now routingReply message).1 = st
      ∧ (handleNewRequest orgCtx self agent st now routingReply message).2.2 = [])
    ∨ (∃ (u : User) (req : Request) (task : Task),
        st.getUser u.id = some u
        ∧ (handleNewRequest orgCtx self agent st now routingReply message).1.requests
            = st.requests ++ [req]
        ∧ (handleNewRequest orgCtx self agent st now routingReply message).1.tasks
            = st.tasks ++ [task]
        ∧ (handleNewRequest orgCtx self agent st now routingReply message).1.users = st.users
        ∧ (handleNewRequest orgCtx self agent st now routingReply message).1.agents = st.agents
        ∧ (handleNewRequest orgCtx self agent st now routingReply message).1.messages
            = st.messages
        ∧ (handleNewRequest orgCtx self agent st now routingReply message).1.memories
            = st.memories
        ∧ req.status = ReqStatus.pending
        ∧ req.toUserId = some u.id
        ∧ req.fromUserId = self.id
        ∧ task.userId = u.id
        ∧ task.requestId = req.id
        ∧ task.status = TaskStatus.pending
        ∧ (handleNewRequest orgCtx self agent st now routingReply message).2.2
            = [AgentEvent.requestCreated req]) := by
  unfold handleNewRequest
  dsimp only []
  split
  · left
    exact ⟨rfl, rfl⟩
  · cases hres : resolveTargetUser orgCtx st (routeRequest routingReply message) with
    | none =>
      left
      exact ⟨rfl, rfl⟩
    | some u =>
      right
      exact ⟨u, _, _, resolveTargetUser_getUser _ _ _ _ hres,
        rfl, rfl, rfl, rfl, rfl, rfl, rfl, rfl, rfl, rfl, rfl, rfl, rfl⟩

/-- C5: when the routing decision carries only a team, the target person is
the first element of that team's member list; when the named team is missing
or has no members, the user gets the couldn't-find-a-specific-person
clarification and no record is created or event published. -/
theorem C5_team_resolves_to_first_member :
    (∀ (orgCtx : OrgContext) (self : User) (agent : AgentRec) (st : Storage) (now : Int)
        (routingReply : Option JsonValue) (message : String),
      jsTruthyOptStr (routeRequest routingReply message).targetUserId = false →
      jsTruthyOptStr (routeRequest routingReply message).targetTeam = true →
      (orgCtx.teams.find?
          (fun t => t.name = (routeRequest routingReply message).targetTeam.getD "") = none
        ∨ ∃ team, orgCtx.teams.find?
            (fun t => t.name = (routeRequest routingReply message).targetTeam.getD "")
              = some team
          ∧ team.members = []) →
      handleNewRequest orgCtx self agent st now routingReply message
        = (st, AgentReply.clarifyPerson (routeRequest routingReply message).targetTeam, []))
    ∧ (∀ (orgCtx : OrgContext) (self : User) (agent : AgentRec) (st : Storage) (now : Int)
        (routingReply : Option JsonValue) (message : String) (team : Team) (m : String)
        (ms : List String) (u : User),
      jsTruthyOptStr (routeRequest routingReply message).targetUserId = false →
      jsTruthyOptStr (routeRequest routingReply message).targetTeam = true →
      orgCtx.teams.find?
          (fun t => t.name = (routeRequest routingReply message).targetTeam.getD "")
        = some team →
      team.members = m :: ms →
      st.getUser m = some u →
      u.id = m
      ∧ ∃ req, (handleNewRequest orgCtx self agent st now routingReply message).1.requests
            = st.requests ++ [req]
          ∧ req.toUserId = some m) := by
  constructor
  · intro orgCtx self agent st now routingReply message ha hb hteam
    have hc : ¬((!jsTruthyOptStr (routeRequest routingReply message).targetUserId
        && !jsTruthyOptStr (routeRequest routingReply message).targetTeam) = true) := by
      rw [ha, hb]
      decide
    have hfa : ¬(jsTruthyOptStr (routeRequest routingReply message).targetUserId = true) := by
      rw [ha]
      decide
    have hres : resolveTargetUser orgCtx st (routeRequest routingReply message) = none := by
      unfold resolveTargetUser
      rw [if_neg hfa, if_pos hb]
      cases hteam with
      | inl hnone => rw [hnone]
      | inr hempty =>
        obtain ⟨team, hfind, hmem⟩ := hempty
        rw [hfind]
        dsimp only []
        rw [hmem]
    unfold handleNewRequest
    dsimp only []
    rw [if_neg hc, hres]
  · intro orgCtx self agent st now routingReply message team m ms u ha hb hfind hmem hget
    refine ⟨getUser_id _ _ _ hget, ?_⟩
    have hc : ¬((!jsTruthyOptStr (routeRequest routingReply message).targetUserId
        && !jsTruthyOptStr (routeRequest routingReply message).targetTeam) = true) := by
      rw [ha, hb]
      decide
    have hfa : ¬(jsTruthyOptStr (routeRequest routingReply message).targetUserId = true) := by
      rw [ha]
      decide
    have hres : resolveTargetUser orgCtx st (routeRequest routingReply message) = some u := by
      unfold resolveTargetUser
      rw [if_neg hfa, if_pos hb, hfind]
      dsimp only []
      rw [hmem]
      exact hget
    unfold handleNewRequest
    dsimp only []
    rw [if_neg hc, hres]
    exact ⟨_, rfl, by rw [getUser_id _ _ _ hget]⟩

/-- C5 witness: at a concrete store, (i) a routing reply naming the
member-less team Legal creates nothing and returns the clarification, and
(ii) a reply naming the team Eng with first member bob creates a request
targeted at bob. -/
theorem C5_witness :
    handleNewRequest { teams := [{ name := "Legal", members := [] }] } aliceU
        { id := "agA", userId := "alice", name := "A" }
        { users := [aliceU], agents := [], requests := [], tasks := [], messages := []
          memories := [], nextId := 0 } 0
        (some (JsonValue.obj [("targetTeam", JsonValue.str "Legal")])) "help"
      = ({ users := [aliceU], agents := [], requests := [], tasks := [], messages := []
           memories := [], nextId := 0 }, AgentReply.clarifyPerson (some "Legal"), [])
    ∧ ∃ req, (handleNewRequest { teams := [{ name := "Eng", members := ["bob"] }] } aliceU
        { id := "agA", userId := "alice", name := "A" }
        { users := [aliceU, bobU], agents := [], requests := [], tasks := [], messages := []
          memories := [], nextId := 0 } 0
        (some (JsonValue.obj [("targetTeam", JsonValue.str "Eng")])) "help").1.requests
      = [] ++ [req] ∧ req.toUserId = some "bob" := by
  constructor
  · exact C5_team_resolves_to_first_member.1 _ aliceU _ _ 0 _ "help"
      (by decide) (by decide)
      (Or.inr ⟨{ name := "Legal", members := [] }, by decide, rfl⟩)
  · exact (C5_team_resolves_to_first_member.2 _ aliceU
      { id := "agA", userId := "alice", name := "A" } _ 0 _ "help"
      { name := "Eng", members := ["bob"] } "bob" [] bobU
      (by decide) (by decide) (by decide) rfl (by decide)).2

/-- The task-selection rule as the claim words it: the first task of the
ordered pending list, unless the message begins with a 1-based numeric index
(followed by '.', ':' or whitespace) that is within bounds, in which case the
task at that index; an out-of-range index falls back to the first task. -/
def claimSelectedTask : List Task → String → Option Task
  | [], _ => none
  | t0 :: rest, message =>
    some (match parseLeadingNum message with
      | some n =>
        if 1 ≤ n ∧ n ≤ (t0 :: rest).length then (t0 :: rest).getD (n - 1) t0 else t0
      | none => t0)

/-- The code's integer-index selection coincides with the claim's 1-based
rule. -/
lemma selectRespondTask_eq_claim (t0 : Task) (rest : List Task) (message : String) :
    claimSelectedTask (t0 :: rest) message
      = some (selectRespondTask (t0 :: rest) t0 message) := by
  cases hp : parseLeadingNum message with
  | none =>
    unfold claimSelectedTask selectRespondTask
    dsimp only []
    rw [hp]
  | some n =>
    unfold claimSelectedTask selectRespondTask
    dsimp only []
    rw [hp]
    dsimp only []
    by_cases h : 1 ≤ n ∧ n ≤ (t0 :: rest).length
    · have h2 : 0 ≤ (n : Int) - 1 ∧ (n : Int) - 1 < ((t0 :: rest).length : Int) := by
        omega
      have h3 : ((n : Int) - 1).toNat = n - 1 := by omega
      rw [if_pos h, if_pos h2, h3]
    · have h2 : ¬(0 ≤ (n : Int) - 1 ∧ (n : Int) - 1 < ((t0 :: rest).length : Int)) := by
        omega
      rw [if_neg h, if_neg h2]

/-- C4: for a respond message with a non-empty ordered pending-task list, the
completed request is exactly the one referenced by the claim's selected task
(first task by default, in-bounds 1-based prefix index otherwise, out-of-range
falling back to the first): its stored record afterwards is completed with the
message text minus the numeric prefix (trimmed) as response, and the
`request.completed` event carries that same response. -/
theorem C4_respond_selects_claimed_task (st : Storage) (self : User) (now : Int)
    (message : String) (t0 : Task) (rest : List Task) (sel : Task) (req : Request)
    (htasks : st.getTasksForUser self.id (some TaskStatus.pending) = t0 :: rest)
    (hsel : claimSelectedTask (t0 :: rest) message = some sel)
    (hreq : st.getRequest sel.requestId = some req) :
    (handleResponseToRequest st self now message).1.getRequest req.id
        = some { req with
            status := ReqStatus.completed, updatedAt := now,
            completedAt := some now, response := some (cleanedResponse message) }
    ∧ (handleResponseToRequest st self now message).2.1
        = AgentReply.responseSent req.fromUserId (cleanedResponse message)
    ∧ (handleResponseToRequest st self now message).2.2
        = [AgentEvent.requestCompleted req (cleanedResponse message)] := by
  have hface := selectRespondTask_eq_claim t0 rest message
  rw [hsel] at hface
  have hsel2 : selectRespondTask (t0 :: rest) t0 message = sel :=
    (Option.some.injEq _ _).mp hface.symm
  unfold handleResponseToRequest
  rw [htasks]
  simp only [hsel2, hreq]
  refine ⟨?_, ?_, ?_⟩
  · rw [getRequest_updateTask, getRequest_updateRequest, getRequest_self _ _ _ hreq]
    rfl
  · trivial
  · trivial

/-- Bob's single pending task in the C4 witness store. -/
def c4Task : Task :=
  { id := "t4", userId := "bob", requestId := "r4", title := "Request from Alice"
    description := "desc", status := TaskStatus.pending, priority := Priority.normal
    createdAt := 1, updatedAt := 1, completedAt := none }

/-- The request behind Bob's single pending task. -/
def c4Request : Request :=
  { id := "r4", fromUserId := "alice", fromAgentId := "agA", toUserId := some "bob"
    toAgentId := some "agB", subject := "subj", description := "desc"
    status := ReqStatus.pending, priority := Priority.normal, followUpCount := 0
    lastFollowUp := none, createdAt := 0, updatedAt := 0, completedAt := none
    response := none }

/-- Store for the C4 witness: one pending task. -/
def c4Store : Storage :=
  { users := [aliceU, bobU]
    agents := []
    requests := [c4Request]
    tasks := [c4Task]
    messages := []
    memories := []
    nextId := 0 }

/-- C4 witness: Bob replies "2. done" with only one pending task — the
out-of-range index falls back to the only task, whose request is completed
with response "done". -/
theorem C4_witness :
    (handleResponseToRequest c4Store bobU 100 "2. done").1.getRequest c4Request.id
        = some { c4Request with
            status := ReqStatus.completed, updatedAt := 100,
            completedAt := some 100, response := some (cleanedResponse "2. done") }
    ∧ (handleResponseToRequest c4Store bobU 100 "2. done").2.1
        = AgentReply.responseSent c4Request.fromUserId (cleanedResponse "2. done")
    ∧ (handleResponseToRequest c4Store bobU 100 "2. done").2.2
        = [AgentEvent.requestCompleted c4Request (cleanedResponse "2. done")] :=
  C4_respond_selects_claimed_task c4Store bobU 100 "2. done" c4Task [] c4Task c4Request
    (by decide) (by decide) (by decide)

end AgentComm
